import Mathlib

/-!
Shallow embedding of the contract analyzer's job-orchestration and
AI-backend-routing core, translated from
`src/backend/app/services/workflow_service.py`,
`src/backend/app/api/v1/contracts.py` (the async analysis executor) and
`src/backend/app/core/ai_manager.py`.

Python floats are modelled as exact rationals (`ℚ`), wall-clock instants as
abstract `Nat` timestamps (the claims only inspect whether an end time was
set, never its value), Python dicts as insertion-ordered association lists
(re-assigning an existing key keeps its original position, as in CPython),
and fallible calls as `Except String`.
-/

/-- `TaskStatus` from `workflow_service.py` lines 16-22. -/
inductive TaskStatus where
  | pending
  | running
  | completed
  | failed
  | timeout
  | cancelled
deriving DecidableEq, Repr

/-- `AnalysisTask` dataclass from `workflow_service.py` lines 25-40.
The mock result dict is modelled as an opaque `String` payload (no claim
inspects its contents, only its presence). -/
structure AnalysisTask where
  task_id : String
  contract_text : String
  contract_filename : String
  status : TaskStatus
  start_time : Nat
  end_time : Option Nat := none
  result : Option String := none
  error : Option String := none
  timeout_seconds : Nat := 300
deriving DecidableEq, Repr

/-- The mock analysis payload assembled in `_execute_analysis` lines 86-105
(risky_clauses, suggested_redlines, email_draft, ...), opaque here. -/
def mockAnalysisResult : String :=
  "risky_clauses; suggested_redlines; email_draft; processing_time"

/-- The simulated processing duration of `_execute_analysis`:
`await asyncio.sleep(2)` at line 83, in seconds. -/
def wsSimulatedDuration : Nat := 2

/-- Body of `WorkflowService.cancel_task` lines 158-163 applied to a single
task record: returns the boolean result and the updated record. -/
def cancelUpdate (now : Nat) (t : AnalysisTask) : Bool × AnalysisTask :=
  if t.status = .pending ∨ t.status = .running then
    (true, { t with status := .cancelled, end_time := some now })
  else
    (false, t)

/-- `WorkflowService._execute_analysis` lines 77-114: sets RUNNING, performs
the simulated work, then unconditionally writes the mock result and
COMPLETED (or FAILED with the exception's message if the work raised).
There is no `asyncio.wait_for` here: `timeout_seconds` is never consulted. -/
def wsExecuteAnalysis (now : Nat) (t : AnalysisTask) (work : Except String Unit) :
    AnalysisTask :=
  let t := { t with status := .running }
  match work with
  | .ok _ =>
      { t with result := some mockAnalysisResult, status := .completed,
               end_time := some now }
  | .error e =>
      { t with status := .failed, error := some e, end_time := some now }

/-- Atomic status-writing events a task record undergoes: the executor's
entry write (`task.status = RUNNING`, line 80), its success write
(lines 86-108), its failure write (lines 110-113), and a `cancel_task`
call (lines 158-163).  Cooperative scheduling runs these writes in some
interleaved order; each event is one uninterrupted write. -/
inductive WEvent where
  | start
  | finishOk
  | finishErr (msg : String)
  | cancel
deriving DecidableEq, Repr

/-- Effect of one event on the task record, exactly as the source writes it:
`start` and the two `finish` writes are unconditional, `cancel` only fires
from PENDING or RUNNING. -/
def wsEventStep (now : Nat) (t : AnalysisTask) : WEvent → AnalysisTask
  | .start => { t with status := .running }
  | .finishOk =>
      { t with result := some mockAnalysisResult, status := .completed,
               end_time := some now }
  | .finishErr msg =>
      { t with status := .failed, error := some msg, end_time := some now }
  | .cancel => (cancelUpdate now t).2

/-- Run a sequence of events over a task record. -/
def runEvents (now : Nat) (t : AnalysisTask) (es : List WEvent) : AnalysisTask :=
  es.foldl (wsEventStep now) t

/-- The terminal statuses of the §4.1 state graph. -/
def terminalStatus (s : TaskStatus) : Bool :=
  s = .completed || s = .failed || s = .timeout || s = .cancelled

/-- The `active_tasks` dict of `WorkflowService`, as an insertion-ordered
association list. -/
abbrev Tasks : Type := List (String × AnalysisTask)

/-- `self.active_tasks.get(task_id)`: the first (and, on real states, only)
binding for the key. -/
def findTask : Tasks → String → Option AnalysisTask
  | [], _ => none
  | p :: rest, tid => if p.1 = tid then some p.2 else findTask rest tid

/-- In-place re-assignment of an existing key of the task dict. -/
def updateTask (m : Tasks) (tid : String) (t : AnalysisTask) : Tasks :=
  List.map (fun p => if p.1 = tid then (tid, t) else p) m

/-- `WorkflowService.get_task_result` lines 138-143: `None` unless the task
exists and its status is COMPLETED, else the stored result. -/
def getTaskResult (m : Tasks) (tid : String) : Option String :=
  match findTask m tid with
  | none => none
  | some t => if t.status ≠ .completed then none else t.result

/-- `WorkflowService.cancel_task` lines 155-163 at the dict level. -/
def cancelTask (now : Nat) (m : Tasks) (tid : String) : Bool × Tasks :=
  match findTask m tid with
  | none => (false, m)
  | some t =>
      if t.status = .pending ∨ t.status = .running then
        (true, updateTask m tid { t with status := .cancelled, end_time := some now })
      else
        (false, m)

/-- Run a list of `cancel_task` calls, each a (timestamp, task_id) pair,
collecting the returned booleans and the final dict. -/
def runCancels (m : Tasks) : List (Nat × String) → List Bool × Tasks
  | [] => ([], m)
  | (now, tid) :: rest =>
      let r := cancelTask now m tid
      let rs := runCancels r.2 rest
      (r.1 :: rs.1, rs.2)

/-- "Every later call for `tid` returned false": pointwise over the calls
paired with their results. -/
def falseForId (calls : List (Nat × String)) (bs : List Bool) (tid : String) : Prop :=
  ∀ p ∈ calls.zip bs, p.1.2 = tid → p.2 = false

/-- The API-layer task of `models/api_models.py` lines 160-173, used by
`contracts.py`: its `status` field is a plain string. -/
structure ApiTask where
  task_id : String
  contract_text : String
  contract_filename : String
  timeout_seconds : Nat := 60
  status : String := "pending"
  result : Option String := none
  error : Option String := none
  start_time : Nat
  end_time : Option Nat := none
deriving DecidableEq, Repr

/-- `execute_analysis_with_timeout` from `contracts.py` lines 156-188.
The `asyncio.wait_for(workflow.execute(...), timeout=task.timeout_seconds)`
race is modelled by the workflow call's wall-clock duration `workDuration`
and its outcome `workResult`: the deadline elapsing before the call returns
(`timeout_seconds < workDuration`) raises `TimeoutError`; otherwise the
call's own outcome propagates. -/
def executeAnalysisWithTimeout (now : Nat) (t : ApiTask) (workDuration : Nat)
    (workResult : Except String String) : ApiTask :=
  let t := { t with status := "running" }
  if t.timeout_seconds < workDuration then
    { t with
      error := some ("Analysis timed out after " ++ toString t.timeout_seconds ++ " seconds"),
      status := "timeout", end_time := some now }
  else
    match workResult with
    | .ok r =>
        { t with result := some r, status := "completed", end_time := some now }
    | .error e =>
        { t with error := some ("Analysis failed: " ++ e), status := "failed",
                 end_time := some now }

/-- `ModelType` from `ai_manager.py` lines 33-40. -/
inductive ModelType where
  | contract_analysis
  | risk_assessment
  | redline_generation
  | email_drafting
  | precedent_search
deriving DecidableEq, Repr

/-- Rendering of a `ModelType` for error messages. -/
def modelTypeName : ModelType → String
  | .contract_analysis => "contract_analysis"
  | .risk_assessment => "risk_assessment"
  | .redline_generation => "redline_generation"
  | .email_drafting => "email_drafting"
  | .precedent_search => "precedent_search"

/-- `ModelConfig` from `ai_manager.py` lines 43-57.  `ModelProvider` is a
str-Enum and the dataclass performs no validation, so an arbitrary provider
string can reach `add_model`; the provider is therefore a `String` here. -/
structure ModelConfig where
  name : String
  provider : String
  model_type : ModelType
  model_id : String
  temperature : ℚ := 1/10
  max_tokens : Option Nat := none
  timeout : Nat := 30
  retry_attempts : Nat := 3
  cost_per_token : ℚ := 0
  is_active : Bool := true
  priority : Int := 1
deriving DecidableEq, Repr

/-- The three members of `ModelProvider` (lines 25-30), i.e. the provider
kinds `add_model` dispatches on. -/
def recognizedProvider (p : String) : Bool :=
  p = "openai" || p = "anthropic" || p = "local"

/-- The `token_usage` dict of an `AnalysisResult` (lines 60-70). -/
structure TokenUsage where
  prompt_tokens : Nat := 0
  completion_tokens : Nat := 0
  total_tokens : Nat := 0
deriving DecidableEq, Repr

/-- `AnalysisResult` from `ai_manager.py` lines 60-70 (the `metadata` dict
is not used by any stats/selection code and is omitted). -/
structure AnalysisResult where
  content : String
  confidence_score : ℚ
  model_used : String
  processing_time : ℚ
  token_usage : TokenUsage
  cost : ℚ
deriving DecidableEq, Repr

/-- One `usage_stats` entry as initialized in `add_model` lines 303-311. -/
structure UsageStats where
  total_requests : Nat := 0
  successful_requests : Nat := 0
  failed_requests : Nat := 0
  total_tokens : Nat := 0
  total_cost : ℚ := 0
  average_confidence : ℚ := 0
  average_processing_time : ℚ := 0
deriving DecidableEq, Repr

/-- The zeroed stats entry written by `add_model`. -/
def zeroStats : UsageStats := {}

/-- Lookup in an insertion-ordered dict (first binding wins; `add_model`
keeps keys unique, so at most one binding exists per key on real states). -/
def lookupA {α : Type} : List (String × α) → String → Option α
  | [], _ => none
  | p :: rest, k => if p.1 = k then some p.2 else lookupA rest k

/-- CPython dict assignment `d[k] = v`: replaces the value in place when the
key exists (keeping its insertion position), else appends. -/
def insertA {α : Type} (m : List (String × α)) (k : String) (v : α) :
    List (String × α) :=
  if (lookupA m k).isSome then
    List.map (fun p => if p.1 = k then (k, v) else p) m
  else
    m ++ [(k, v)]

/-- The mutable state of `AIModelManager` (lines 243-247) relevant to the
claims: `self.model_configs` and `self.usage_stats`.  `self.models` holds
the adapter objects under exactly the same keys as `model_configs` (both
are only written together in `add_model`), so it is represented by
`model_configs`; the adapters' invocation behaviour is passed explicitly
to the invocation functions below. -/
structure AIManagerState where
  model_configs : List (String × ModelConfig)
  usage_stats : List (String × UsageStats)
deriving DecidableEq, Repr

/-- A manager with nothing registered. -/
def emptyManager : AIManagerState := { model_configs := [], usage_stats := [] }

/-- The `try` body of `AIModelManager.add_model` lines 291-311: dispatch on
the provider kind (raising `ValueError` on an unrecognized one), then
assign the model, its config and a zeroed stats entry.  The raise happens
before any assignment, so an error leaves the state untouched. -/
def add_model_try (s : AIManagerState) (config : ModelConfig) :
    Except String AIManagerState :=
  if recognizedProvider config.provider then
    .ok { model_configs := insertA s.model_configs config.name config,
          usage_stats := insertA s.usage_stats config.name zeroStats }
  else
    .error ("Unsupported provider: " ++ config.provider)

/-- `AIModelManager.add_model` lines 289-316: the whole body is wrapped in
`try/except Exception`, which logs and swallows, so no error ever
propagates to the caller. -/
def add_model (s : AIManagerState) (config : ModelConfig) : AIManagerState :=
  match add_model_try s config with
  | .ok s' => s'
  | .error _ => s

/-- `AIModelManager.get_models_by_type` lines 322-326: the active models of
a given type, in registration order. -/
def get_models_by_type (s : AIManagerState) (mt : ModelType) :
    List (String × ModelConfig) :=
  List.filter (fun p => decide (p.2.model_type = mt) && p.2.is_active) s.model_configs

/-- `self.usage_stats[name]` as read by `select_best_model`; on real states
every registered model has a stats entry, so the default is never hit. -/
def statsFor (s : AIManagerState) (name : String) : UsageStats :=
  (lookupA s.usage_stats name).getD zeroStats

/-- Python's `min(l, key=f)` fold: keeps the earlier element on ties
because it replaces only on a strict improvement. -/
def minFold {α β : Type} [LinearOrder β] (f : α → β) (x : α) (xs : List α) : α :=
  xs.foldl (fun best y => if f y < f best then y else best) x

/-- Python's `min(l, key=f)` (first minimal element), `None` on `[]`. -/
def pyMinBy {α β : Type} [LinearOrder β] (f : α → β) : List α → Option α
  | [] => none
  | x :: xs => some (minFold f x xs)

/-- Python's `max(l, key=f)` fold: keeps the earlier element on ties. -/
def maxFold {α β : Type} [LinearOrder β] (f : α → β) (x : α) (xs : List α) : α :=
  xs.foldl (fun best y => if f best < f y then y else best) x

/-- Python's `max(l, key=f)` (first maximal element), `None` on `[]`. -/
def pyMaxBy {α β : Type} [LinearOrder β] (f : α → β) : List α → Option α
  | [] => none
  | x :: xs => some (maxFold f x xs)

/-- `AIModelManager.select_best_model` lines 328-348.  A model object is
represented by its (name, config) pair. -/
def select_best_model (s : AIManagerState) (mt : ModelType) (criteria : String) :
    Option (String × ModelConfig) :=
  let available := get_models_by_type s mt
  if available = [] then
    none
  else if criteria = "confidence" then
    pyMaxBy (fun m => (statsFor s m.1).average_confidence) available
  else if criteria = "speed" then
    pyMinBy (fun m => (statsFor s m.1).average_processing_time) available
  else if criteria = "cost" then
    pyMinBy (fun m => m.2.cost_per_token) available
  else
    pyMinBy (fun m => m.2.priority) available

/-- `AIModelManager._update_usage_stats` lines 400-415 on one stats entry:
bump total/success counters, accumulate tokens and cost, then update both
running averages with the incremental-mean formula using the
post-increment success count. -/
def update_usage_stats_entry (st : UsageStats) (result : AnalysisResult) :
    UsageStats :=
  let st := { st with
    total_requests := st.total_requests + 1,
    successful_requests := st.successful_requests + 1,
    total_tokens := st.total_tokens + result.token_usage.total_tokens,
    total_cost := st.total_cost + result.cost }
  if st.successful_requests > 0 then
    { st with
      average_confidence :=
        (st.average_confidence * ((st.successful_requests : ℚ) - 1)
          + result.confidence_score) / (st.successful_requests : ℚ),
      average_processing_time :=
        (st.average_processing_time * ((st.successful_requests : ℚ) - 1)
          + result.processing_time) / (st.successful_requests : ℚ) }
  else
    st

/-- `_update_usage_stats` at the manager level: in-place mutation of the
named entry of `self.usage_stats`. -/
def update_usage_stats (s : AIManagerState) (name : String) (result : AnalysisResult) :
    AIManagerState :=
  let f := fun (p : String × UsageStats) =>
    if p.1 = name then (p.1, update_usage_stats_entry p.2 result) else p
  { s with usage_stats := List.map f s.usage_stats }

/-- The failure path of `analyze_with_model` line 366:
`self.usage_stats[model_name]["failed_requests"] += 1` — only the failure
counter is touched. -/
def bump_failed (s : AIManagerState) (name : String) : AIManagerState :=
  let f := fun (p : String × UsageStats) =>
    if p.1 = name then (p.1, { p.2 with failed_requests := p.2.failed_requests + 1 }) else p
  { s with usage_stats := List.map f s.usage_stats }

/-- `AIModelManager.analyze_with_model` lines 350-368.  The adapter's
network call is the explicit `behavior` argument (name ↦ outcome);
an unregistered name raises `ValueError` before any call. -/
def analyze_with_model (s : AIManagerState)
    (behavior : String → Except String AnalysisResult) (model_name : String) :
    Except String AnalysisResult × AIManagerState :=
  match lookupA s.model_configs model_name with
  | none => (.error ("Model " ++ model_name ++ " not found"), s)
  | some _ =>
      match behavior model_name with
      | .ok result => (.ok result, update_usage_stats s model_name result)
      | .error e => (.error e, bump_failed s model_name)

/-- The ascending-priority order used by `analyze_with_fallback` line 386. -/
def priorityLE (a b : String × ModelConfig) : Prop :=
  a.2.priority ≤ b.2.priority

instance : DecidableRel priorityLE :=
  fun a b => inferInstanceAs (Decidable (a.2.priority ≤ b.2.priority))

instance : IsTotal (String × ModelConfig) priorityLE :=
  ⟨fun a b => le_total a.2.priority b.2.priority⟩

instance : IsTrans (String × ModelConfig) priorityLE :=
  ⟨fun _ _ _ hab hbc => le_trans hab hbc⟩

/-- `models.sort(key=lambda m: m.config.priority)` — CPython's sort is
stable, so any stable ascending sort is the faithful embedding. -/
def sortByPriority (l : List (String × ModelConfig)) : List (String × ModelConfig) :=
  List.insertionSort priorityLE l

/-- The loop of `analyze_with_fallback` lines 388-398: try each model in
order, remembering the last error; on exhaustion re-raise it (the
`or Exception("All models failed")` default is unreachable when the
candidate list was non-empty). -/
def fallbackGo (behavior : String → Except String AnalysisResult) :
    List (String × ModelConfig) → AIManagerState → Option String →
    Except String AnalysisResult × AIManagerState
  | [], s, lastErr => (.error (lastErr.getD "All models failed"), s)
  | m :: rest, s, lastErr =>
      match analyze_with_model s behavior m.1 with
      | (.ok r, s') => (.ok r, s')
      | (.error e, s') => fallbackGo behavior rest s' (some e)

/-- `AIModelManager.analyze_with_fallback` lines 378-398. -/
def analyze_with_fallback (s : AIManagerState)
    (behavior : String → Except String AnalysisResult) (mt : ModelType) :
    Except String AnalysisResult × AIManagerState :=
  let models := get_models_by_type s mt
  if models = [] then
    (.error ("No models available for type: " ++ modelTypeName mt), s)
  else
    fallbackGo behavior (sortByPriority models) s none

/-- Record the per-model failure bumps of a sequence of failed attempts. -/
def failState (s : AIManagerState) (names : List String) : AIManagerState :=
  names.foldl bump_failed s

/-! ### Concrete fixtures used to instantiate the theorems -/

/-- A freshly submitted task, as built by `start_analysis` lines 61-68. -/
def wTask0 : AnalysisTask :=
  { task_id := "t-1", contract_text := "some contract text",
    contract_filename := "a.pdf", status := .pending, start_time := 0 }

/-- A submitted task whose timeout is shorter than the executor's simulated
2-second work. -/
def wTask1 : AnalysisTask :=
  { wTask0 with task_id := "t-2", timeout_seconds := 1 }

/-- A COMPLETED task record as the executor leaves it. -/
def doneTask : AnalysisTask :=
  { wTask0 with
      task_id := "t-4"
      status := .completed
      result := some mockAnalysisResult
      end_time := some 3 }

/-- A small `active_tasks` dict: one pending task and one completed task. -/
def tasks0 : Tasks := [("a", wTask0), ("d", doneTask)]

/-- An API-layer task with a 1-second timeout. -/
def apiTask1 : ApiTask :=
  { task_id := "t-3", contract_text := "some contract text",
    contract_filename := "a.pdf", timeout_seconds := 1, start_time := 0 }

/-- Three same-category backends: priorities 1, 2, 3; the cheapest is the
third-registered one. -/
def cfg1 : ModelConfig :=
  { name := "m1", provider := "openai", model_type := .contract_analysis,
    model_id := "gpt-4", cost_per_token := 3, priority := 1 }

def cfg2 : ModelConfig :=
  { name := "m2", provider := "openai", model_type := .contract_analysis,
    model_id := "gpt-4-turbo-preview", cost_per_token := 3, priority := 2 }

def cfg3 : ModelConfig :=
  { name := "m3", provider := "openai", model_type := .contract_analysis,
    model_id := "gpt-3.5-turbo", cost_per_token := 1, priority := 3 }

/-- Manager holding the three backends above. -/
def s3 : AIManagerState := add_model (add_model (add_model emptyManager cfg1) cfg2) cfg3

/-- A successful analysis outcome attributed to backend m3. -/
def res3 : AnalysisResult :=
  { content := "analysis", confidence_score := 1/2, model_used := "m3",
    processing_time := 2, token_usage := { total_tokens := 10 }, cost := 5 }

/-- Adapter behaviour where the two higher-priority backends raise and the
third succeeds. -/
def behav3 : String → Except String AnalysisResult := fun n =>
  match n with
  | "m3" => .ok res3
  | _ => .error ("provider error from " ++ n)

/-- Two successful outcomes with confidences 1/2 and 1. -/
def resW1 : AnalysisResult :=
  { content := "r1", confidence_score := 1/2, model_used := "m",
    processing_time := 2, token_usage := {}, cost := 1 }

def resW2 : AnalysisResult :=
  { content := "r2", confidence_score := 1, model_used := "m",
    processing_time := 4, token_usage := {}, cost := 1 }

/-- A single registered backend named m. -/
def cfgM : ModelConfig :=
  { name := "m", provider := "openai", model_type := .risk_assessment,
    model_id := "gpt-4" }

def sM : AIManagerState := add_model emptyManager cfgM

/-- Adapter behaviour that always raises. -/
def behavFail : String → Except String AnalysisResult := fun _ => .error "boom"

/-- A re-registration of backend m with a different cost. -/
def cfgM2 : ModelConfig := { cfgM with cost_per_token := 7 }

/-- Manager where backend m has non-zero usage statistics. -/
def sM1 : AIManagerState := update_usage_stats sM "m" resW1

/-- A config whose provider kind is not one of the three recognized ones. -/
def cfgBad : ModelConfig :=
  { name := "b", provider := "azure", model_type := .risk_assessment,
    model_id := "azure-gpt" }

/-! ### Helper lemmas -/

theorem lookupA_isSome_of_mem {α : Type} {m : List (String × α)} {k : String} {v : α}
    (h : (k, v) ∈ m) : (lookupA m k).isSome := by
  induction m with
  | nil => cases h
  | cons p rest ih =>
      rcases List.mem_cons.mp h with rfl | hmem
      · simp [lookupA]
      · by_cases hp : p.1 = k
        · simp [lookupA, hp]
        · simpa [lookupA, hp] using ih hmem

theorem lookupA_map_update {α : Type} (m : List (String × α)) (k : String) (v : α) :
    lookupA (List.map (fun p => if p.1 = k then (k, v) else p) m) k =
      if (lookupA m k).isSome then some v else none := by
  induction m with
  | nil => simp [lookupA]
  | cons p rest ih =>
      by_cases hp : p.1 = k
      · simp [lookupA, hp]
      · simpa [lookupA, hp] using ih

theorem lookupA_map_update_other {α : Type} (m : List (String × α)) (k n : String) (v : α)
    (h : n ≠ k) :
    lookupA (List.map (fun p => if p.1 = k then (k, v) else p) m) n = lookupA m n := by
  induction m with
  | nil => simp [lookupA]
  | cons p rest ih =>
      by_cases hp : p.1 = k
      · have hkn : ¬ (k = n) := fun hk => h hk.symm
        have hpn : ¬ (p.1 = n) := by rw [hp]; exact hkn
        simpa [lookupA, hp, hkn, hpn] using ih
      · by_cases hn : p.1 = n
        · simp [lookupA, hp, hn, h]
        · simpa [lookupA, hp, hn] using ih

theorem lookupA_append {α : Type} (m₁ m₂ : List (String × α)) (k : String) :
    lookupA (m₁ ++ m₂) k =
      if (lookupA m₁ k).isSome then lookupA m₁ k else lookupA m₂ k := by
  induction m₁ with
  | nil => simp [lookupA]
  | cons p rest ih =>
      by_cases hp : p.1 = k
      · simp [lookupA, hp]
      · simpa [lookupA, hp] using ih

theorem lookupA_insertA_self {α : Type} (m : List (String × α)) (k : String) (v : α) :
    lookupA (insertA m k v) k = some v := by
  unfold insertA
  by_cases h : (lookupA m k).isSome
  · rw [if_pos h, lookupA_map_update, if_pos h]
  · rw [if_neg h, lookupA_append, if_neg h]
    simp [lookupA]

theorem lookupA_insertA_other {α : Type} (m : List (String × α)) (k n : String) (v : α)
    (h : n ≠ k) : lookupA (insertA m k v) n = lookupA m n := by
  unfold insertA
  by_cases hf : (lookupA m k).isSome
  · rw [if_pos hf, lookupA_map_update_other _ _ _ _ h]
  · rw [if_neg hf, lookupA_append]
    by_cases hn : (lookupA m n).isSome
    · rw [if_pos hn]
    · rw [if_neg hn]
      have hnone : lookupA m n = none := Option.not_isSome_iff_eq_none.mp hn
      have hkn : ¬ (k = n) := fun hk => h hk.symm
      simp [hnone, lookupA, hkn]

theorem minFold_spec {α β : Type} [LinearOrder β] (f : α → β) :
    ∀ (xs : List α) (x : α),
      ∃ l1 l2, x :: xs = l1 ++ minFold f x xs :: l2 ∧
        (∀ q ∈ l1, f (minFold f x xs) < f q) ∧
        (∀ q ∈ x :: xs, f (minFold f x xs) ≤ f q) := by
  intro xs
  induction xs with
  | nil =>
      intro x
      exact ⟨[], [], rfl, by simp, by simp [minFold]⟩
  | cons y ys ih =>
      intro x
      by_cases h : f y < f x
      · have hm : minFold f x (y :: ys) = minFold f y ys := by
          simp [minFold, h]
        rw [hm]
        obtain ⟨l1, l2, heq, hstrict, hmin⟩ := ih y
        refine ⟨x :: l1, l2, by rw [List.cons_append, ← heq], ?_, ?_⟩
        · intro q hq
          rcases List.mem_cons.mp hq with rfl | hql
          · exact lt_of_le_of_lt (hmin y (List.mem_cons_self y ys)) h
          · exact hstrict q hql
        · intro q hq
          rcases List.mem_cons.mp hq with rfl | hql
          · exact le_of_lt (lt_of_le_of_lt (hmin y (List.mem_cons_self y ys)) h)
          · exact hmin q hql
      · have hm : minFold f x (y :: ys) = minFold f x ys := by
          simp [minFold, h]
        rw [hm]
        have hxy : f x ≤ f y := le_of_not_lt h
        obtain ⟨l1, l2, heq, hstrict, hmin⟩ := ih x
        set p := minFold f x ys with hpdef
        cases l1 with
        | nil =>
            simp only [List.nil_append] at heq
            injection heq with hpx hl2
            refine ⟨[], y :: ys, by rw [List.nil_append, hpx], by simp, ?_⟩
            intro q hq
            rcases List.mem_cons.mp hq with rfl | hql
            · rw [← hpx]
            · rcases List.mem_cons.mp hql with rfl | hq2
              · rw [← hpx]; exact hxy
              · exact hmin q (List.mem_cons_of_mem x (hl2 ▸ hq2))
        | cons a l1' =>
            rw [List.cons_append] at heq
            injection heq with hax hys
            have hpa : f p < f a := hstrict a (List.mem_cons_self a l1')
            have hpx : f p < f x := by rw [← hax] at hpa; exact hpa
            refine ⟨x :: y :: l1', l2, ?_, ?_, ?_⟩
            · rw [hys]; simp
            · intro q hq
              rcases List.mem_cons.mp hq with rfl | hql
              · exact hpx
              · rcases List.mem_cons.mp hql with rfl | hq2
                · exact lt_of_lt_of_le hpx hxy
                · exact hstrict q (List.mem_cons_of_mem a hq2)
            · intro q hq
              rcases List.mem_cons.mp hq with rfl | hql
              · exact le_of_lt hpx
              · rcases List.mem_cons.mp hql with rfl | hq2
                · exact le_of_lt (lt_of_lt_of_le hpx hxy)
                · exact hmin q (List.mem_cons_of_mem x (hys ▸ hq2))

theorem pyMinBy_spec {α β : Type} [LinearOrder β] (f : α → β) (l : List α)
    (h : l ≠ []) :
    ∃ l1 p l2, pyMinBy f l = some p ∧ l = l1 ++ p :: l2 ∧
      (∀ q ∈ l1, f p < f q) ∧ (∀ q ∈ l, f p ≤ f q) := by
  cases l with
  | nil => exact absurd rfl h
  | cons x xs =>
      obtain ⟨l1, l2, heq, hstrict, hmin⟩ := minFold_spec f xs x
      exact ⟨l1, minFold f x xs, l2, rfl, heq, hstrict, hmin⟩

theorem findTask_updateTask_self (m : Tasks) (tid : String) (t' : AnalysisTask)
    (h : (findTask m tid).isSome) :
    findTask (updateTask m tid t') tid = some t' := by
  induction m with
  | nil => simp [findTask] at h
  | cons p rest ih =>
      by_cases hp : p.1 = tid
      · simp [findTask, updateTask, hp]
      · have h' : (findTask rest tid).isSome := by simpa [findTask, hp] using h
        simpa [findTask, updateTask, hp] using ih h'

theorem findTask_updateTask_other (m : Tasks) (tid tid' : String) (t' : AnalysisTask)
    (h : tid ≠ tid') :
    findTask (updateTask m tid' t') tid = findTask m tid := by
  induction m with
  | nil => simp [findTask, updateTask]
  | cons p rest ih =>
      by_cases hp : p.1 = tid'
      · have h1 : ¬ (tid' = tid) := fun hk => h hk.symm
        have h2 : ¬ (p.1 = tid) := by rw [hp]; exact h1
        simpa [findTask, updateTask, hp, h1, h2] using ih
      · by_cases hq : p.1 = tid
        · simp [findTask, updateTask, hp, hq, h]
        · simpa [findTask, updateTask, hp, hq] using ih

theorem cancelTask_nonactive (now : Nat) (m : Tasks) (tid : String)
    (h : ∀ t, findTask m tid = some t →
      ¬ (t.status = .pending ∨ t.status = .running)) :
    cancelTask now m tid = (false, m) := by
  cases hf : findTask m tid with
  | none => simp only [cancelTask, hf]
  | some t => simp only [cancelTask, hf, if_neg (h t hf)]

theorem cancelTask_preserves_nonactive (now : Nat) (m : Tasks) (tid tid' : String)
    (h : ∀ t, findTask m tid = some t →
      ¬ (t.status = .pending ∨ t.status = .running)) :
    ∀ t, findTask (cancelTask now m tid').2 tid = some t →
      ¬ (t.status = .pending ∨ t.status = .running) := by
  by_cases he : tid = tid'
  · subst he
    rw [cancelTask_nonactive now m tid h]
    exact h
  · cases hf : findTask m tid' with
    | none =>
        simp only [cancelTask, hf]
        exact h
    | some t' =>
        by_cases hs : t'.status = .pending ∨ t'.status = .running
        · simp only [cancelTask, hf, if_pos hs]
          intro t ht
          rw [findTask_updateTask_other m tid tid' _ he] at ht
          exact h t ht
        · simp only [cancelTask, hf, if_neg hs]
          exact h

theorem runCancels_absorbed (tid : String) :
    ∀ (calls : List (Nat × String)) (m : Tasks),
      (∀ t, findTask m tid = some t →
        ¬ (t.status = .pending ∨ t.status = .running)) →
      falseForId calls (runCancels m calls).1 tid := by
  intro calls
  induction calls with
  | nil =>
      intro m _
      intro p hp
      simp [runCancels] at hp
  | cons c rest ih =>
      intro m hm
      obtain ⟨now', tid'⟩ := c
      intro p hp hpid
      rw [runCancels] at hp
      rcases List.mem_cons.mp (by simpa [List.zip] using hp) with rfl | htail
      · dsimp at hpid ⊢
        have : cancelTask now' m tid = (false, m) := cancelTask_nonactive now' m tid hm
        simp [hpid, this]
      · have hm' := cancelTask_preserves_nonactive now' m tid tid' hm
        exact ih (cancelTask now' m tid').2 hm' p htail hpid

theorem runEvents_cancels_fixed (now : Nat) :
    ∀ (es : List WEvent) (t : AnalysisTask),
      (∀ e ∈ es, e = WEvent.cancel) →
      t.status ≠ .pending → t.status ≠ .running →
      runEvents now t es = t := by
  intro es
  induction es with
  | nil => intro t _ _ _; rfl
  | cons e rest ih =>
      intro t hc hp hr
      have he : e = WEvent.cancel := hc e (List.mem_cons_self e rest)
      subst he
      have hstep : wsEventStep now t WEvent.cancel = t := by
        simp only [wsEventStep, cancelUpdate]
        rw [if_neg (by
          intro hor
          rcases hor with h1 | h1
          · exact hp h1
          · exact hr h1)]
      have : runEvents now t (WEvent.cancel :: rest) = runEvents now (wsEventStep now t WEvent.cancel) rest := rfl
      rw [this, hstep]
      exact ih t (fun e' he' => hc e' (List.mem_cons_of_mem _ he')) hp hr

theorem runEvents_append (now : Nat) (t : AnalysisTask) (es₁ es₂ : List WEvent) :
    runEvents now t (es₁ ++ es₂) = runEvents now (runEvents now t es₁) es₂ := by
  simp [runEvents, List.foldl_append]

theorem stats_fold_spec (rs : List AnalysisResult) :
    (rs.foldl update_usage_stats_entry zeroStats).successful_requests = rs.length ∧
    (rs.foldl update_usage_stats_entry zeroStats).average_confidence * rs.length =
      (rs.map (fun r => r.confidence_score)).sum ∧
    (rs.foldl update_usage_stats_entry zeroStats).average_processing_time * rs.length =
      (rs.map (fun r => r.processing_time)).sum := by
  induction rs using List.reverseRecOn with
  | nil => simp [zeroStats]
  | append_singleton rs r ih =>
      obtain ⟨ihn, ihc, iht⟩ := ih
      rw [List.foldl_append]
      simp only [List.foldl_cons, List.foldl_nil]
      set st := rs.foldl update_usage_stats_entry zeroStats with hst
      have hpos : st.successful_requests + 1 > 0 := Nat.succ_pos _
      have hne : ((rs.length : ℚ) + 1) ≠ 0 := by positivity
      have hlen : (update_usage_stats_entry st r).successful_requests = rs.length + 1 := by
        simp [update_usage_stats_entry, ihn]
      have hconf : (update_usage_stats_entry st r).average_confidence =
          (st.average_confidence * ((st.successful_requests : ℚ) + 1 - 1)
            + r.confidence_score) / ((st.successful_requests : ℚ) + 1) := by
        simp [update_usage_stats_entry, hpos]
      have htime : (update_usage_stats_entry st r).average_processing_time =
          (st.average_processing_time * ((st.successful_requests : ℚ) + 1 - 1)
            + r.processing_time) / ((st.successful_requests : ℚ) + 1) := by
        simp [update_usage_stats_entry, hpos]
      refine ⟨by simpa using hlen, ?_, ?_⟩
      · rw [hconf, ihn]
        rw [List.map_append, List.sum_append, List.length_append]
        push_cast [List.length_singleton]
        rw [div_mul_cancel₀ _ hne]
        rw [show ((rs.length : ℚ) + 1 - 1) = (rs.length : ℚ) by ring]
        rw [ihc]
        simp
      · rw [htime, ihn]
        rw [List.map_append, List.sum_append, List.length_append]
        push_cast [List.length_singleton]
        rw [div_mul_cancel₀ _ hne]
        rw [show ((rs.length : ℚ) + 1 - 1) = (rs.length : ℚ) by ring]
        rw [iht]
        simp

theorem fallbackGo_ok (behavior : String → Except String AnalysisResult) :
    ∀ (pre : List (String × ModelConfig)) (m : String × ModelConfig)
      (post : List (String × ModelConfig)) (r : AnalysisResult)
      (s : AIManagerState) (lastErr : Option String),
      (∀ x ∈ pre, (lookupA s.model_configs x.1).isSome ∧ ∃ e, behavior x.1 = .error e) →
      (lookupA s.model_configs m.1).isSome →
      behavior m.1 = .ok r →
      fallbackGo behavior (pre ++ m :: post) s lastErr =
        (.ok r, update_usage_stats (failState s (pre.map Prod.fst)) m.1 r) := by
  intro pre
  induction pre with
  | nil =>
      intro m post r s lastErr _ hm hr
      obtain ⟨cfg, hcfg⟩ := Option.isSome_iff_exists.mp hm
      simp [fallbackGo, analyze_with_model, hcfg, hr, failState]
  | cons x pre ih =>
      intro m post r s lastErr hpre hm hr
      obtain ⟨hx, e, he⟩ := hpre x (List.mem_cons_self x pre)
      obtain ⟨cfg, hcfg⟩ := Option.isSome_iff_exists.mp hx
      have hstep : fallbackGo behavior ((x :: pre) ++ m :: post) s lastErr
          = fallbackGo behavior (pre ++ m :: post) (bump_failed s x.1) (some e) := by
        simp [fallbackGo, analyze_with_model, hcfg, he]
      rw [hstep]
      exact ih m post r (bump_failed s x.1) (some e)
        (fun y hy => hpre y (List.mem_cons_of_mem x hy)) hm hr

theorem fallbackGo_allFail (behavior : String → Except String AnalysisResult) :
    ∀ (pre : List (String × ModelConfig)) (m : String × ModelConfig) (e : String)
      (s : AIManagerState) (lastErr : Option String),
      (∀ x ∈ pre, (lookupA s.model_configs x.1).isSome ∧ ∃ e', behavior x.1 = .error e') →
      (lookupA s.model_configs m.1).isSome →
      behavior m.1 = .error e →
      fallbackGo behavior (pre ++ [m]) s lastErr =
        (.error e, failState s ((pre ++ [m]).map Prod.fst)) := by
  intro pre
  induction pre with
  | nil =>
      intro m e s lastErr _ hm he
      obtain ⟨cfg, hcfg⟩ := Option.isSome_iff_exists.mp hm
      simp [fallbackGo, analyze_with_model, hcfg, he, failState]
  | cons x pre ih =>
      intro m e s lastErr hpre hm he
      obtain ⟨hx, e', he'⟩ := hpre x (List.mem_cons_self x pre)
      obtain ⟨cfg, hcfg⟩ := Option.isSome_iff_exists.mp hx
      have hstep : fallbackGo behavior ((x :: pre) ++ [m]) s lastErr
          = fallbackGo behavior (pre ++ [m]) (bump_failed s x.1) (some e') := by
        simp [fallbackGo, analyze_with_model, hcfg, he']
      rw [hstep]
      exact ih m e (bump_failed s x.1) (some e')
        (fun y hy => hpre y (List.mem_cons_of_mem x hy)) hm he

theorem failState_model_configs (names : List String) :
    ∀ (s : AIManagerState), (failState s names).model_configs = s.model_configs := by
  induction names with
  | nil => intro s; rfl
  | cons n rest ih => intro s; exact ih (bump_failed s n)

theorem mem_candidates_lookup (s : AIManagerState) (mt : ModelType)
    {x : String × ModelConfig} (hx : x ∈ get_models_by_type s mt) :
    (lookupA s.model_configs x.1).isSome := by
  have hmem : x ∈ s.model_configs := List.mem_of_mem_filter hx
  obtain ⟨k, v⟩ := x
  exact lookupA_isSome_of_mem hmem

theorem findTask_mem (m : Tasks) (tid : String) {t : AnalysisTask}
    (h : findTask m tid = some t) : ∃ p ∈ m, p.2 = t := by
  induction m with
  | nil => simp [findTask] at h
  | cons q rest ih =>
      by_cases hq : q.1 = tid
      · have hqt : q.2 = t := by simpa [findTask, hq] using h
        exact ⟨q, List.mem_cons_self q rest, hqt⟩
      · have h' : findTask rest tid = some t := by simpa [findTask, hq] using h
        obtain ⟨p, hp, hpt⟩ := ih h'
        exact ⟨p, List.mem_cons_of_mem q hp, hpt⟩

/-! ### Claim theorems -/

/-- C4 (confirmed): starting from a zeroed stats entry, after `k ≥ 1`
successful invocations recorded through `_update_usage_stats` with
confidence scores `c1..ck` and processing times `t1..tk`, the entry's
success count is `k`, its running average confidence is `(c1+...+ck)/k`,
and its running average processing time is the arithmetic mean of the
observed times — i.e. the incremental-mean update
`new_avg = (old_avg * (n-1) + new_value) / n` with post-increment `n`
computes the true mean for every `k ≥ 1`. -/
theorem C4_running_average (rs : List AnalysisResult) (h : rs ≠ []) :
    (rs.foldl update_usage_stats_entry zeroStats).successful_requests = rs.length ∧
    (rs.foldl update_usage_stats_entry zeroStats).average_confidence =
      (rs.map (fun r => r.confidence_score)).sum / rs.length ∧
    (rs.foldl update_usage_stats_entry zeroStats).average_processing_time =
      (rs.map (fun r => r.processing_time)).sum / rs.length := by
  obtain ⟨hn, hc, ht⟩ := stats_fold_spec rs
  have hlen0 : rs.length ≠ 0 := fun h0 => h (List.length_eq_zero.mp h0)
  have hlen : ((rs.length : ℚ)) ≠ 0 := Nat.cast_ne_zero.mpr hlen0
  exact ⟨hn, (eq_div_iff hlen).mpr hc, (eq_div_iff hlen).mpr ht⟩

/-- Witness for C4 at the two-element sequence with confidences 1/2 and 1
and processing times 2 and 4: the averages are 3/4 and 3. -/
theorem C4_running_average_witness :
    ([resW1, resW2] ≠ []) ∧
    ([resW1, resW2].foldl update_usage_stats_entry zeroStats).successful_requests = 2 ∧
    ([resW1, resW2].foldl update_usage_stats_entry zeroStats).average_confidence = 3/4 ∧
    ([resW1, resW2].foldl update_usage_stats_entry zeroStats).average_processing_time = 3 := by
  have h : ([resW1, resW2] : List AnalysisResult) ≠ [] := by simp
  obtain ⟨hn, hc, ht⟩ := C4_running_average [resW1, resW2] h
  refine ⟨h, by simpa using hn, ?_, ?_⟩
  · rw [hc]; norm_num [resW1, resW2]
  · rw [ht]; norm_num [resW1, resW2]

/-- C5 (code bug): on a failed invocation, `analyze_with_model` propagates
the exception but its stats update increments only `failed_requests` —
`total_requests` stays at 0 on a fresh backend, although both the spec and
the counter's own name (`total` vs `successful`/`failed`) say the total
counter should also increase.  Everything else (success counter, tokens,
cost, averages) is indeed unchanged.  Evaluated at the failing input: one
backend m with zeroed stats and an adapter that raises "boom". -/
theorem C5_failure_path :
    (analyze_with_model sM behavFail "m").1 = Except.error "boom" ∧
    (analyze_with_model sM behavFail "m").2.usage_stats =
      [("m", { zeroStats with failed_requests := 1 })] ∧
    ((analyze_with_model sM behavFail "m").2.usage_stats.map
      (fun p => (p.1, p.2.total_requests))) = [("m", 0)] := by
  refine ⟨rfl, rfl, rfl⟩

/-- C6 (confirmed): under the §3 representation invariant (a COMPLETED task
carries a result — which the executor establishes, since it writes the
result in the same step as the COMPLETED status), `get_task_result`
returns a value iff a task with that id exists and its status is
COMPLETED; missing tasks and every other status yield `None`. -/
theorem C6_get_result_iff (m : Tasks) (tid : String)
    (hinv : ∀ p ∈ m, p.2.status = TaskStatus.completed → p.2.result.isSome) :
    ((getTaskResult m tid).isSome ↔
      ∃ t, findTask m tid = some t ∧ t.status = TaskStatus.completed) := by
  cases hf : findTask m tid with
  | none => simp [getTaskResult, hf]
  | some t =>
      by_cases hs : t.status = TaskStatus.completed
      · have hres : t.result.isSome := by
          obtain ⟨p, hp, hpt⟩ := findTask_mem m tid hf
          exact hpt ▸ hinv p hp (by rw [hpt]; exact hs)
        simp only [getTaskResult, hf]
        rw [if_neg (not_not_intro hs)]
        constructor
        · intro _; exact ⟨t, rfl, hs⟩
        · intro _; exact hres
      · simp [getTaskResult, hf, hs]

/-- Witness for C6 on a dict with one pending and one completed task,
queried at the completed id. -/
theorem C6_get_result_iff_witness :
    (∀ p ∈ tasks0, p.2.status = TaskStatus.completed → p.2.result.isSome) ∧
    ((getTaskResult tasks0 "d").isSome ↔
      ∃ t, findTask tasks0 "d" = some t ∧ t.status = TaskStatus.completed) := by
  have hinv : ∀ p ∈ tasks0, p.2.status = TaskStatus.completed → p.2.result.isSome := by
    decide
  exact ⟨hinv, C6_get_result_iff tasks0 "d" hinv⟩

theorem select_best_model_default (s : AIManagerState) (mt : ModelType) (c : String)
    (h1 : c ≠ "confidence") (h2 : c ≠ "speed") (h3 : c ≠ "cost") :
    select_best_model s mt c =
      pyMinBy (fun m => m.2.priority) (get_models_by_type s mt) := by
  by_cases hav : get_models_by_type s mt = []
  · simp only [select_best_model]
    rw [if_pos hav, hav]
    rfl
  · simp only [select_best_model]
    rw [if_neg hav, if_neg h1, if_neg h2, if_neg h3]

/-- C9 (confirmed): with the "cost" criterion, `select_best_model` returns
`None` when the category has no active candidate; otherwise it returns the
candidate with the smallest static `cost_per_token` (a configured
constant), and on ties the earliest-registered such candidate: every
candidate listed before the returned one is strictly more expensive, and no
candidate is cheaper. -/
theorem C9_select_cost (s : AIManagerState) (mt : ModelType) :
    (get_models_by_type s mt = [] → select_best_model s mt "cost" = none) ∧
    (get_models_by_type s mt ≠ [] →
      ∃ l1 p l2, select_best_model s mt "cost" = some p ∧
        get_models_by_type s mt = l1 ++ p :: l2 ∧
        (∀ q ∈ l1, p.2.cost_per_token < q.2.cost_per_token) ∧
        (∀ q ∈ get_models_by_type s mt, p.2.cost_per_token ≤ q.2.cost_per_token)) := by
  constructor
  · intro h
    simp only [select_best_model]
    rw [if_pos h]
  · intro h
    have hsel : select_best_model s mt "cost" =
        pyMinBy (fun m => m.2.cost_per_token) (get_models_by_type s mt) := by
      simp only [select_best_model]
      rw [if_neg h, if_neg (by decide : ¬("cost" : String) = "confidence"),
        if_neg (by decide : ¬("cost" : String) = "speed")]
      simp
    obtain ⟨l1, p, l2, hmin, heq, hstrict, hle⟩ :=
      pyMinBy_spec (fun m => m.2.cost_per_token) (get_models_by_type s mt) h
    exact ⟨l1, p, l2, by rw [hsel, hmin], heq, hstrict, hle⟩

/-- Witness for C9 on the three-backend manager (costs 3, 3, 1): the
nonempty case applies. -/
theorem C9_select_cost_witness :
    get_models_by_type s3 ModelType.contract_analysis ≠ [] ∧
    (∃ l1 p l2, select_best_model s3 ModelType.contract_analysis "cost" = some p ∧
      get_models_by_type s3 ModelType.contract_analysis = l1 ++ p :: l2 ∧
      (∀ q ∈ l1, p.2.cost_per_token < q.2.cost_per_token) ∧
      (∀ q ∈ get_models_by_type s3 ModelType.contract_analysis,
        p.2.cost_per_token ≤ q.2.cost_per_token)) := by
  have h : get_models_by_type s3 ModelType.contract_analysis ≠ [] := by decide
  exact ⟨h, (C9_select_cost s3 ModelType.contract_analysis).2 h⟩

/-- C10 (confirmed): any criteria string other than "confidence", "speed"
and "cost" — including "priority" itself and any misspelling — silently
selects by minimum numeric priority (earliest-registered on ties), never
raising and returning `Some` whenever the candidate set is non-empty; at
the interface such a string is indistinguishable from "priority". -/
theorem C10_unknown_criteria (s : AIManagerState) (mt : ModelType) (criteria : String)
    (h1 : criteria ≠ "confidence") (h2 : criteria ≠ "speed") (h3 : criteria ≠ "cost") :
    select_best_model s mt criteria = select_best_model s mt "priority" ∧
    (get_models_by_type s mt ≠ [] →
      ∃ l1 p l2, select_best_model s mt criteria = some p ∧
        get_models_by_type s mt = l1 ++ p :: l2 ∧
        (∀ q ∈ l1, p.2.priority < q.2.priority) ∧
        (∀ q ∈ get_models_by_type s mt, p.2.priority ≤ q.2.priority)) := by
  have hc := select_best_model_default s mt criteria h1 h2 h3
  have hp := select_best_model_default s mt "priority" (by decide) (by decide) (by decide)
  constructor
  · rw [hc, hp]
  · intro h
    obtain ⟨l1, p, l2, hmin, heq, hstrict, hle⟩ :=
      pyMinBy_spec (fun m => m.2.priority) (get_models_by_type s mt) h
    exact ⟨l1, p, l2, by rw [hc, hmin], heq, hstrict, hle⟩

/-- Witness for C10 with the unrecognized criteria string "latency" on the
three-backend manager. -/
theorem C10_unknown_criteria_witness :
    (("latency" : String) ≠ "confidence" ∧ ("latency" : String) ≠ "speed" ∧
      ("latency" : String) ≠ "cost" ∧
      get_models_by_type s3 ModelType.contract_analysis ≠ []) ∧
    select_best_model s3 ModelType.contract_analysis "latency" =
      select_best_model s3 ModelType.contract_analysis "priority" ∧
    (∃ l1 p l2, select_best_model s3 ModelType.contract_analysis "latency" = some p ∧
      get_models_by_type s3 ModelType.contract_analysis = l1 ++ p :: l2 ∧
      (∀ q ∈ l1, p.2.priority < q.2.priority) ∧
      (∀ q ∈ get_models_by_type s3 ModelType.contract_analysis,
        p.2.priority ≤ q.2.priority)) := by
  have h := C10_unknown_criteria s3 ModelType.contract_analysis "latency"
    (by decide) (by decide) (by decide)
  exact ⟨⟨by decide, by decide, by decide, by decide⟩, h.1, h.2 (by decide)⟩

/-- C1 (counterexample): on a freshly submitted task, the executor's entry
write followed by a cancellation leaves the task CANCELLED — a terminal
status — yet when the executor's success write then lands, the status
changes again, to COMPLETED: the terminal status does not persist and the
cancellation does not win over the in-progress result. -/
theorem C1_cancellation_counterexample :
    terminalStatus (runEvents 7 wTask0 [WEvent.start, WEvent.cancel]).status = true ∧
    (runEvents 7 wTask0 [WEvent.start, WEvent.cancel]).status = TaskStatus.cancelled ∧
    (runEvents 7 wTask0 [WEvent.start, WEvent.cancel, WEvent.finishOk]).status =
      TaskStatus.completed := by
  refine ⟨rfl, rfl, rfl⟩

/-- C1 (amended): `cancel_task` itself never changes a terminal status, and
it marks a PENDING/RUNNING task CANCELLED; but the executor's writes are
unconditional, so the CANCELLED status survives only while the underlying
execution has not finished: for every interleaving of cancellation
requests around an execution, a run whose work succeeds ends COMPLETED and
one whose work raises ends FAILED — the execution's result, not the
cancellation, determines the final status. -/
theorem C1_cancellation_amended :
    (∀ (now : Nat) (t : AnalysisTask), terminalStatus t.status = true →
      cancelUpdate now t = (false, t)) ∧
    (∀ (now : Nat) (t : AnalysisTask) (a b c : List WEvent),
      (∀ e ∈ a, e = WEvent.cancel) → (∀ e ∈ b, e = WEvent.cancel) →
      (∀ e ∈ c, e = WEvent.cancel) →
      (runEvents now t (a ++ [WEvent.start] ++ b ++ [WEvent.finishOk] ++ c)).status =
        TaskStatus.completed) ∧
    (∀ (now : Nat) (t : AnalysisTask) (a b c : List WEvent) (msg : String),
      (∀ e ∈ a, e = WEvent.cancel) → (∀ e ∈ b, e = WEvent.cancel) →
      (∀ e ∈ c, e = WEvent.cancel) →
      (runEvents now t (a ++ [WEvent.start] ++ b ++ [WEvent.finishErr msg] ++ c)).status =
        TaskStatus.failed) := by
  refine ⟨?_, ?_, ?_⟩
  · intro now t ht
    unfold cancelUpdate
    rw [if_neg ?hneg]
    case hneg =>
      intro hor
      rcases hor with h1 | h1 <;> rw [h1] at ht <;> simp [terminalStatus] at ht
  · intro now t a b c _ _ hc
    rw [runEvents_append, runEvents_append]
    have hfin : (runEvents now (runEvents now t (a ++ [WEvent.start] ++ b))
        [WEvent.finishOk]).status = TaskStatus.completed := rfl
    rw [runEvents_cancels_fixed now c _ hc
      (by rw [hfin]; intro hx; cases hx) (by rw [hfin]; intro hx; cases hx)]
    exact hfin
  · intro now t a b c msg _ _ hc
    rw [runEvents_append, runEvents_append]
    have hfin : (runEvents now (runEvents now t (a ++ [WEvent.start] ++ b))
        [WEvent.finishErr msg]).status = TaskStatus.failed := rfl
    rw [runEvents_cancels_fixed now c _ hc
      (by rw [hfin]; intro hx; cases hx) (by rw [hfin]; intro hx; cases hx)]
    exact hfin

/-- Witness for the amended C1: a cancel before the start, one during the
run and one after the finish; the run still ends COMPLETED, and a
completed task is untouched by `cancelUpdate`. -/
theorem C1_cancellation_amended_witness :
    (terminalStatus doneTask.status = true ∧ cancelUpdate 9 doneTask = (false, doneTask)) ∧
    (runEvents 7 wTask0 ([WEvent.cancel] ++ [WEvent.start] ++ [WEvent.cancel]
        ++ [WEvent.finishOk] ++ [WEvent.cancel])).status = TaskStatus.completed := by
  have h := C1_cancellation_amended
  refine ⟨⟨by decide, h.1 9 doneTask (by decide)⟩, ?_⟩
  exact h.2.1 7 wTask0 [WEvent.cancel] [WEvent.cancel] [WEvent.cancel]
    (by decide) (by decide) (by decide)

/-- C2 (counterexample): a task submitted to `WorkflowService` with
`timeout_seconds = 1` races nothing: the simulated work takes 2 seconds —
strictly longer than the deadline — yet `_execute_analysis` completes the
task instead of marking it TIMEOUT, because it never consults
`timeout_seconds` and contains no `asyncio.wait_for`. -/
theorem C2_timeout_counterexample :
    wTask1.timeout_seconds < wsSimulatedDuration ∧
    (wsExecuteAnalysis 9 wTask1 (Except.ok ())).status = TaskStatus.completed ∧
    (wsExecuteAnalysis 9 wTask1 (Except.ok ())).status ≠ TaskStatus.timeout := by
  refine ⟨by decide, rfl, by decide⟩

/-- C2 (amended): the deadline race as claimed holds for the API route's
executor `execute_analysis_with_timeout`: when the workflow call's
duration exceeds `timeout_seconds` the task ends "timeout" with an error
recording the configured duration; when the call raises within the
deadline the task ends "failed" with the exception's message appended to
"Analysis failed: "; when it returns in time the task ends "completed"
with the result attached.  `WorkflowService._execute_analysis`, by
contrast, never produces TIMEOUT: whatever the timeout and however long
the work, it ends COMPLETED or FAILED. -/
theorem C2_timeout_amended (now : Nat) (t : ApiTask) (d : Nat)
    (res : Except String String) :
    (t.timeout_seconds < d →
      (executeAnalysisWithTimeout now t d res).status = "timeout" ∧
      (executeAnalysisWithTimeout now t d res).error =
        some ("Analysis timed out after " ++ toString t.timeout_seconds ++ " seconds")) ∧
    (∀ e, d ≤ t.timeout_seconds → res = Except.error e →
      (executeAnalysisWithTimeout now t d res).status = "failed" ∧
      (executeAnalysisWithTimeout now t d res).error =
        some ("Analysis failed: " ++ e)) ∧
    (∀ r, d ≤ t.timeout_seconds → res = Except.ok r →
      (executeAnalysisWithTimeout now t d res).status = "completed" ∧
      (executeAnalysisWithTimeout now t d res).result = some r) ∧
    (∀ (t' : AnalysisTask) (work : Except String Unit),
      (wsExecuteAnalysis now t' work).status = TaskStatus.completed ∨
      (wsExecuteAnalysis now t' work).status = TaskStatus.failed) := by
  refine ⟨?_, ?_, ?_, ?_⟩
  · intro hd
    simp only [executeAnalysisWithTimeout]
    rw [if_pos hd]
    exact ⟨rfl, rfl⟩
  · intro e hd hres
    subst hres
    simp only [executeAnalysisWithTimeout]
    rw [if_neg (Nat.not_lt.mpr hd)]
    exact ⟨rfl, rfl⟩
  · intro r hd hres
    subst hres
    simp only [executeAnalysisWithTimeout]
    rw [if_neg (Nat.not_lt.mpr hd)]
    exact ⟨rfl, rfl⟩
  · intro t' work
    cases work with
    | ok u => exact Or.inl rfl
    | error e => exact Or.inr rfl

/-- Witness for the amended C2 on a 1-second-timeout API task: a 5-second
workflow call yields "timeout" with the 1-second message; a fast failing
call yields "failed"; a fast successful call yields "completed". -/
theorem C2_timeout_amended_witness :
    (apiTask1.timeout_seconds < 5 ∧
      (executeAnalysisWithTimeout 9 apiTask1 5 (Except.ok "r")).status = "timeout" ∧
      (executeAnalysisWithTimeout 9 apiTask1 5 (Except.ok "r")).error =
        some ("Analysis timed out after " ++ toString apiTask1.timeout_seconds ++ " seconds")) ∧
    ((1 : Nat) ≤ apiTask1.timeout_seconds ∧
      (executeAnalysisWithTimeout 9 apiTask1 1 (Except.error "x")).status = "failed") ∧
    ((executeAnalysisWithTimeout 9 apiTask1 1 (Except.ok "r")).status = "completed" ∧
      (executeAnalysisWithTimeout 9 apiTask1 1 (Except.ok "r")).result = some "r") := by
  have h5 := C2_timeout_amended 9 apiTask1 5 (Except.ok "r")
  have hf := C2_timeout_amended 9 apiTask1 1 (Except.error "x")
  have hk := C2_timeout_amended 9 apiTask1 1 (Except.ok "r")
  refine ⟨⟨by decide, (h5.1 (by decide)).1, (h5.1 (by decide)).2⟩,
    ⟨by decide, (hf.2.1 "x" (by decide) rfl).1⟩,
    ⟨(hk.2.2.1 "r" (by decide) rfl).1, (hk.2.2.1 "r" (by decide) rfl).2⟩⟩

/-- C7 (confirmed): `cancel_task` returns true iff the task exists with
status PENDING or RUNNING, in which case the stored record becomes
CANCELLED with its completion time set; a false return changes nothing;
and once a cancel has returned true for a task id, every later
`cancel_task` call for that id — across any sequence of calls — returns
false (so true is returned at most once per task). -/
theorem C7_cancel_task (now : Nat) (m : Tasks) (tid : String) :
    ((cancelTask now m tid).1 = true ↔
      ∃ t, findTask m tid = some t ∧
        (t.status = TaskStatus.pending ∨ t.status = TaskStatus.running)) ∧
    (∀ t, findTask m tid = some t →
      (t.status = TaskStatus.pending ∨ t.status = TaskStatus.running) →
      (cancelTask now m tid).2 =
        updateTask m tid { t with status := TaskStatus.cancelled, end_time := some now } ∧
      findTask (cancelTask now m tid).2 tid =
        some { t with status := TaskStatus.cancelled, end_time := some now }) ∧
    ((cancelTask now m tid).1 = false → (cancelTask now m tid).2 = m) ∧
    ((cancelTask now m tid).1 = true →
      ∀ calls, falseForId calls (runCancels (cancelTask now m tid).2 calls).1 tid) := by
  have hiff : (cancelTask now m tid).1 = true ↔
      ∃ t, findTask m tid = some t ∧
        (t.status = TaskStatus.pending ∨ t.status = TaskStatus.running) := by
    cases hf : findTask m tid with
    | none => simp [cancelTask, hf]
    | some t =>
        by_cases hs : t.status = TaskStatus.pending ∨ t.status = TaskStatus.running
        · simp only [cancelTask, hf, if_pos hs]
          exact ⟨fun _ => ⟨t, rfl, hs⟩, fun _ => trivial⟩

        · simp only [cancelTask, hf, if_neg hs]
          constructor
          · intro hb; cases hb
          · rintro ⟨t', ht', hp⟩
            injection ht' with h1
            exact absurd (h1 ▸ hp) hs
  have hupd : ∀ t, findTask m tid = some t →
      (t.status = TaskStatus.pending ∨ t.status = TaskStatus.running) →
      (cancelTask now m tid).2 =
        updateTask m tid { t with status := TaskStatus.cancelled, end_time := some now } ∧
      findTask (cancelTask now m tid).2 tid =
        some { t with status := TaskStatus.cancelled, end_time := some now } := by
    intro t hf hs
    constructor
    · simp only [cancelTask, hf, if_pos hs]
    · simp only [cancelTask, hf, if_pos hs]
      exact findTask_updateTask_self m tid _ (by rw [hf]; rfl)
  refine ⟨hiff, hupd, ?_, ?_⟩
  · intro hb
    cases hf : findTask m tid with
    | none => simp only [cancelTask, hf]
    | some t =>
        by_cases hs : t.status = TaskStatus.pending ∨ t.status = TaskStatus.running
        · have h1 : (cancelTask now m tid).1 = true := by
            simp only [cancelTask, hf, if_pos hs]
          rw [h1] at hb
          simp at hb
        · simp only [cancelTask, hf, if_neg hs]
  · intro htrue calls
    obtain ⟨t, hf, hs⟩ := hiff.mp htrue
    apply runCancels_absorbed
    intro t' ht'
    rw [(hupd t hf hs).2] at ht'
    injection ht' with h1
    rw [← h1]
    intro hor
    rcases hor with h2 | h2 <;> simp at h2

/-- Witness for C7 on the pending task "a" and the completed task "d" of
`tasks0`, with two follow-up cancel calls for "a". -/
theorem C7_cancel_task_witness :
    ((cancelTask 5 tasks0 "a").1 = true ↔
      ∃ t, findTask tasks0 "a" = some t ∧
        (t.status = TaskStatus.pending ∨ t.status = TaskStatus.running)) ∧
    ((cancelTask 5 tasks0 "d").1 = false → (cancelTask 5 tasks0 "d").2 = tasks0) ∧
    falseForId [(6, "a"), (7, "a")]
      (runCancels (cancelTask 5 tasks0 "a").2 [(6, "a"), (7, "a")]).1 "a" := by
  have h1 := C7_cancel_task 5 tasks0 "a"
  have h2 := C7_cancel_task 5 tasks0 "d"
  exact ⟨h1.1, h2.2.2.1, h1.2.2.2 (by decide) [(6, "a"), (7, "a")]⟩

/-- C8 (counterexample): registering a config whose name is already present
raises nothing and silently changes the registry: on a manager whose
backend m has non-zero stats, re-adding a config named m succeeds
(`add_model_try` returns ok, so no error reaches the caller even before
the try/except) and resets m's stats to the zeroed entry. -/
theorem C8_add_model_counterexample :
    (add_model_try sM1 cfgM2).isOk = true ∧
    lookupA (add_model sM1 cfgM2).usage_stats "m" = some zeroStats ∧
    (lookupA sM1.usage_stats "m").map (fun st => st.total_requests) = some 1 ∧
    add_model sM1 cfgM2 ≠ sM1 := by
  refine ⟨rfl, rfl, rfl, ?_⟩
  intro heq
  have h1 : (lookupA (add_model sM1 cfgM2).usage_stats "m").map
      (fun st => st.total_requests) = some 0 := rfl
  rw [heq] at h1
  have h2 : (lookupA sM1.usage_stats "m").map (fun st => st.total_requests) = some 1 := rfl
  rw [h2] at h1
  simp at h1

/-- C8 (amended): `add_model` never raises to its caller (the body's
try/except swallows every error): with an unrecognized provider kind the
internal `ValueError` is caught and the registry maps are left unchanged;
with a recognized provider the call always succeeds — a fresh name gets
the config plus a zeroed stats entry and no other key changes, while a
duplicate name silently overwrites the config and resets that backend's
stats to zero instead of being rejected. -/
theorem C8_add_model_amended (s : AIManagerState) (config : ModelConfig) :
    (recognizedProvider config.provider = false →
      add_model_try s config =
        Except.error ("Unsupported provider: " ++ config.provider) ∧
      add_model s config = s) ∧
    (recognizedProvider config.provider = true →
      lookupA (add_model s config).model_configs config.name = some config ∧
      lookupA (add_model s config).usage_stats config.name = some zeroStats ∧
      ∀ n, n ≠ config.name →
        lookupA (add_model s config).model_configs n = lookupA s.model_configs n ∧
        lookupA (add_model s config).usage_stats n = lookupA s.usage_stats n) := by
  constructor
  · intro h
    have h' : ¬ recognizedProvider config.provider = true := by rw [h]; simp
    constructor
    · simp only [add_model_try]
      rw [if_neg h']
    · simp only [add_model, add_model_try]
      rw [if_neg h']
  · intro h
    have hok : add_model s config =
        { model_configs := insertA s.model_configs config.name config,
          usage_stats := insertA s.usage_stats config.name zeroStats } := by
      simp only [add_model, add_model_try]
      rw [if_pos h]
    rw [hok]
    exact ⟨lookupA_insertA_self _ _ _, lookupA_insertA_self _ _ _,
      fun n hn => ⟨lookupA_insertA_other _ _ _ _ hn, lookupA_insertA_other _ _ _ _ hn⟩⟩

/-- Witness for the amended C8: the unrecognized provider "azure" is
swallowed leaving the manager unchanged, and re-adding m (recognized
provider, duplicate name) installs the new config and zeroed stats. -/
theorem C8_add_model_amended_witness :
    (recognizedProvider cfgBad.provider = false ∧
      add_model sM1 cfgBad = sM1) ∧
    (recognizedProvider cfgM2.provider = true ∧
      lookupA (add_model sM1 cfgM2).model_configs "m" = some cfgM2 ∧
      lookupA (add_model sM1 cfgM2).usage_stats "m" = some zeroStats) := by
  have hbad := (C8_add_model_amended sM1 cfgBad).1 (by decide)
  have hgood := (C8_add_model_amended sM1 cfgM2).2 (by decide)
  exact ⟨⟨by decide, hbad.2⟩, ⟨by decide, hgood.1, hgood.2.1⟩⟩

/-- C3 (confirmed): `analyze_with_fallback` raises the distinct "no models
available" error on an empty candidate set; otherwise it tries the active
candidates in ascending priority order (stable, so registration order
breaks ties): if the first successes is preceded by failures, every
failure bumps that backend's failure counter before the next candidate is
tried and the first success's result is returned with its stats update
applied; if every candidate fails, the last candidate's error is re-raised
after all the per-attempt stats bumps. -/
theorem C3_fallback (s : AIManagerState)
    (behavior : String → Except String AnalysisResult) (mt : ModelType) :
    (get_models_by_type s mt = [] →
      analyze_with_fallback s behavior mt =
        (Except.error ("No models available for type: " ++ modelTypeName mt), s)) ∧
    List.Sorted priorityLE (sortByPriority (get_models_by_type s mt)) ∧
    (sortByPriority (get_models_by_type s mt)).Perm (get_models_by_type s mt) ∧
    (∀ pre m post r,
      sortByPriority (get_models_by_type s mt) = pre ++ m :: post →
      (∀ x ∈ pre, ∃ e, behavior x.1 = Except.error e) →
      behavior m.1 = Except.ok r →
      analyze_with_fallback s behavior mt =
        (Except.ok r, update_usage_stats (failState s (pre.map Prod.fst)) m.1 r)) ∧
    (∀ pre m e,
      sortByPriority (get_models_by_type s mt) = pre ++ [m] →
      (∀ x ∈ pre, ∃ e', behavior x.1 = Except.error e') →
      behavior m.1 = Except.error e →
      analyze_with_fallback s behavior mt =
        (Except.error e, failState s ((pre ++ [m]).map Prod.fst))) := by
  refine ⟨?_, ?_, ?_, ?_, ?_⟩
  · intro h
    simp only [analyze_with_fallback]
    rw [if_pos h]
  · exact List.sorted_insertionSort priorityLE (get_models_by_type s mt)
  · exact List.perm_insertionSort priorityLE (get_models_by_type s mt)
  · intro pre m post r hsplit hpre hok
    have hne : get_models_by_type s mt ≠ [] := by
      intro h0
      rw [h0] at hsplit
      simp [sortByPriority] at hsplit
    have hmem : ∀ x ∈ pre ++ m :: post, (lookupA s.model_configs x.1).isSome := by
      intro x hx
      have hx1 : x ∈ sortByPriority (get_models_by_type s mt) := by
        rw [hsplit]; exact hx
      have hx2 : x ∈ get_models_by_type s mt :=
        (List.perm_insertionSort priorityLE (get_models_by_type s mt)).mem_iff.mp hx1
      exact mem_candidates_lookup s mt hx2
    simp only [analyze_with_fallback]
    rw [if_neg hne, hsplit]
    exact fallbackGo_ok behavior pre m post r s none
      (fun x hx => ⟨hmem x (List.mem_append_left _ hx), hpre x hx⟩)
      (hmem m (List.mem_append_right _ (List.mem_cons_self m post))) hok
  · intro pre m e hsplit hpre herr
    have hne : get_models_by_type s mt ≠ [] := by
      intro h0
      rw [h0] at hsplit
      simp [sortByPriority] at hsplit
    have hmem : ∀ x ∈ pre ++ [m], (lookupA s.model_configs x.1).isSome := by
      intro x hx
      have hx1 : x ∈ sortByPriority (get_models_by_type s mt) := by
        rw [hsplit]; exact hx
      have hx2 : x ∈ get_models_by_type s mt :=
        (List.perm_insertionSort priorityLE (get_models_by_type s mt)).mem_iff.mp hx1
      exact mem_candidates_lookup s mt hx2
    simp only [analyze_with_fallback]
    rw [if_neg hne, hsplit]
    exact fallbackGo_allFail behavior pre m e s none
      (fun x hx => ⟨hmem x (List.mem_append_left _ hx), hpre x hx⟩)
      (hmem m (List.mem_append_right _ (List.mem_cons_self m []))) herr

/-- Witness for C3: three same-category backends with priorities 1, 2, 3
where the first two raise and the third succeeds — the result is the
third's, and the final stats show failures recorded for m1 and m2 and one
success for m3. -/
theorem C3_fallback_witness :
    sortByPriority (get_models_by_type s3 ModelType.contract_analysis) =
      [("m1", cfg1), ("m2", cfg2)] ++ ("m3", cfg3) :: [] ∧
    analyze_with_fallback s3 behav3 ModelType.contract_analysis =
      (Except.ok res3, update_usage_stats (failState s3 ["m1", "m2"]) "m3" res3) ∧
    ((analyze_with_fallback s3 behav3 ModelType.contract_analysis).2.usage_stats.map
      (fun p => (p.1, p.2.successful_requests, p.2.failed_requests))) =
      [("m1", 0, 1), ("m2", 0, 1), ("m3", 1, 0)] := by
  have hsplit : sortByPriority (get_models_by_type s3 ModelType.contract_analysis) =
      [("m1", cfg1), ("m2", cfg2)] ++ ("m3", cfg3) :: [] := rfl
  refine ⟨hsplit, ?_, rfl⟩
  exact (C3_fallback s3 behav3 ModelType.contract_analysis).2.2.2.1
    [("m1", cfg1), ("m2", cfg2)] ("m3", cfg3) [] res3 hsplit
    (by
      intro x hx
      fin_cases hx
      · exact ⟨"provider error from m1", rfl⟩
      · exact ⟨"provider error from m2", rfl⟩)
    rfl
